import Mathlib

/-!
Verification of the Prompt Flow Reader (`src/prompts/prompt_flow.py`, with a
near-identical duplicate in `src/prompts/flows/unit_test_prompt_flow.py`).

The Python code is shallowly embedded: Python values that can flow out of the
external YAML parser are modelled by the inductive type `PyVal`, Python
exceptions relevant to the claims by `PyExc`, and the file system / glob
primitives (external collaborators per the spec) are parameters of the
embedded operations.  Python string primitives (`str.split`, `str.strip`,
`str.lower`, `str.join`, substring tests) are re-implemented over character
lists so that every definition reduces in the kernel.
-/

/-- Python values as they can come out of `yaml.safe_load` (model of the
dynamically typed frontmatter).  Dictionary keys are modelled as strings,
which covers every key the program queries. -/
inductive PyVal where
  | none
  | bool (b : Bool)
  | int (n : Int)
  | str (s : String)
  | list (xs : List PyVal)
  | dict (kvs : List (String × PyVal))

/-- Python truthiness (`if frontmatter:` and friends). -/
def PyVal.truthy : PyVal → Bool
  | .none => false
  | .bool b => b
  | .int n => n != 0
  | .str s => s != ""
  | .list xs => !xs.isEmpty
  | .dict kvs => !kvs.isEmpty

/-- The Python exceptions the embedded code can raise. -/
inductive PyExc where
  | fileNotFoundError
  | ioError
  | attributeError
  | typeError
deriving DecidableEq

/-- `class FileType(Enum)` from the source. -/
inductive FileType where
  | PROMPT
  | INSTRUCTION
  | DOCUMENT
deriving DecidableEq, BEq

/- ## Python string primitives, re-implemented structurally -/

/-- Split a character list at every occurrence of the separator character;
like Python `str.split(sep)` this always returns at least one piece. -/
def splitOnChar (sep : Char) : List Char → List (List Char)
  | [] => [[]]
  | c :: cs =>
    let r := splitOnChar sep cs
    if c == sep then [] :: r
    else
      match r with
      | [] => [[c]]
      | piece :: rest => (c :: piece) :: rest

/-- Python `content.split(sep)` for a one-character separator. -/
def pySplit (sep : Char) (s : String) : List String :=
  (splitOnChar sep s.toList).map String.mk

/-- Python `sep.join(pieces)`. -/
def strJoin (sep : String) : List String → String
  | [] => ""
  | [x] => x
  | x :: y :: ys => x ++ sep ++ strJoin sep (y :: ys)

/-- Drop leading whitespace characters. -/
def dropLeadingWs : List Char → List Char
  | [] => []
  | c :: cs => if c.isWhitespace then dropLeadingWs cs else c :: cs

/-- Python `s.strip()`: remove whitespace from both ends. -/
def pyStrip (s : String) : String :=
  String.mk ((dropLeadingWs ((dropLeadingWs s.toList).reverse)).reverse)

/-- Lower-case one ASCII character (model of Python `str.lower` per char). -/
def lowerChar (c : Char) : Char :=
  if 'A' ≤ c && c ≤ 'Z' then Char.ofNat (c.toNat + 32) else c

/-- Python `s.lower()`. -/
def pyLower (s : String) : String :=
  String.mk (s.toList.map lowerChar)

/-- Does the second list occur at the head of the first-argument position?
`takesLead needle hay` is true iff `needle` is an initial run of `hay`. -/
def takesLead : List Char → List Char → Bool
  | [], _ => true
  | _ :: _, [] => false
  | n :: ns, h :: hs => n == h && takesLead ns hs

/-- Does `needle` occur as a contiguous run somewhere in `hay`? -/
def hasRun (needle : List Char) : List Char → Bool
  | [] => takesLead needle []
  | h :: hs => takesLead needle (h :: hs) || hasRun needle hs

/-- Python `needle in hay` for strings (substring containment). -/
def strContains (hay needle : String) : Bool :=
  hasRun needle.toList hay.toList

/-- Python `hay.endswith(suffixStr)`: the needle is a final run of the hay. -/
def strEndsWith (hay needle : String) : Bool :=
  takesLead needle.toList.reverse hay.toList.reverse

/-- pathlib `Path.name`: the final path component. -/
def pathName (p : String) : String :=
  (pySplit '/' p).getLastD ""

/-- pathlib `base / rel` (as used by the reader: `rel` is a relative path). -/
def joinPath (base rel : String) : String :=
  base ++ "/" ++ rel

/- ## The external YAML parser -/

/-- Type of the external `yaml.safe_load` collaborator: it either raises a
`yaml.YAMLError` (modelled `Except.error ()`) or returns a Python value.
The spec treats the structured-data parser as a provided library
capability, so the embedded operations take it as a parameter. -/
abbrev SafeLoad := String → Except Unit PyVal

/- ## `PromptFlowReader._extract_frontmatter` -/

/-- `lines = content.split('\n')` from `_extract_frontmatter`. -/
def fmLines (content : String) : List String :=
  pySplit '\n' content

/-- The scan `for i, line in enumerate(lines[1:], 1): if line.strip() == '---'`,
returning the index counted inside `lines[1:]` (so source `end_idx = j + 1`). -/
def findDelimIdx : Nat → List String → Option Nat
  | _, [] => Option.none
  | j, l :: rest => if pyStrip l == "---" then Option.some j else findDelimIdx (j + 1) rest

/-- Index (within `lines[1:]`) of the closing delimiter line, if any. -/
def fmCloseIdx (content : String) : Option Nat :=
  findDelimIdx 0 (fmLines content).tail

/-- `frontmatter_text = '\n'.join(lines[1:end_idx])` with `end_idx = j + 1`. -/
def fmSpan (content : String) (j : Nat) : String :=
  strJoin "\n" ((fmLines content).tail.take j)

/-- `remaining_content = '\n'.join(lines[end_idx + 1:])` with `end_idx = j + 1`. -/
def fmBody (content : String) (j : Nat) : String :=
  strJoin "\n" ((fmLines content).tail.drop (j + 1))

/-- `PromptFlowReader._extract_frontmatter` (identical in both source files).
The first component models the Python return value `frontmatter`
(`PyVal.none` both for "no header" and for a header whose YAML document is
the null document). -/
def extract_frontmatter (sf : SafeLoad) (content : String) : PyVal × String :=
  let lines := fmLines content
  if lines.isEmpty || pyStrip (lines.headD "") != "---" then
    (PyVal.none, content)
  else
    match fmCloseIdx content with
    | Option.none => (PyVal.none, content)
    | Option.some j =>
      let frontmatterText := fmSpan content j
      let parsed :=
        if pyStrip frontmatterText == "" then Except.ok (PyVal.dict [])
        else sf frontmatterText
      match parsed with
      | Except.error _ => (PyVal.none, content)
      | Except.ok v => (v, fmBody content j)

/- ## Classification and metadata -/

/-- Python `key in dict` for the string-keyed frontmatter dict. -/
def dictHasKey (kvs : List (String × PyVal)) (key : String) : Bool :=
  kvs.any (fun kv => kv.1 == key)

/-- Python `key in value` for the frontmatter value: key membership for
dicts, substring test for strings, element equality for lists, and a
`TypeError` for the remaining types. -/
def pyIn (key : String) : PyVal → Except PyExc Bool
  | .dict kvs => Except.ok (dictHasKey kvs key)
  | .str s => Except.ok (strContains s key)
  | .list xs =>
    Except.ok (xs.any (fun v => match v with | .str s => s == key | _ => false))
  | _ => Except.error PyExc.typeError

/-- Python `value.get(key)`: defined for dicts (returning `None` when the
key is absent), an `AttributeError` on every other frontmatter value. -/
def pyGet (v : PyVal) (key : String) : Except PyExc PyVal :=
  match v with
  | .dict kvs =>
    Except.ok (match kvs.find? (fun kv => kv.1 == key) with
      | Option.some kv => kv.2
      | Option.none => PyVal.none)
  | _ => Except.error PyExc.attributeError

/-- Python `a or b` on values: `a` if truthy, else `b`. -/
def pyOr (a b : PyVal) : PyVal :=
  if a.truthy then a else b

/-- `PromptFlowReader._determine_file_type`.  The result is `Except` because
the `in` tests can raise a `TypeError` when the parsed frontmatter is a
truthy non-container (e.g. an int). -/
def determine_file_type (file_path : String) (frontmatter : PyVal) :
    Except PyExc FileType :=
  let file_name := pyLower (pathName file_path)
  if strContains file_name ".instructions.md" then Except.ok FileType.INSTRUCTION
  else if strContains file_name ".prompt.md" then Except.ok FileType.PROMPT
  else if frontmatter.truthy then do
    let a ← pyIn "applyTo" frontmatter
    let a' ← pyIn "applyto" frontmatter
    if a || a' then pure FileType.INSTRUCTION
    else do
      let m ← pyIn "mode" frontmatter
      let m' ← pyIn "model" frontmatter
      if m || m' then pure FileType.PROMPT
      else pure FileType.DOCUMENT
  else Except.ok FileType.DOCUMENT

/-- `@dataclass FileMetadata` from the source.  The optional fields hold the
raw Python values pulled out of the frontmatter (`PyVal.none` = Python
`None`, the dataclass defaults). -/
structure FileMetadata where
  file_type : FileType
  apply_to : PyVal := PyVal.none
  mode : PyVal := PyVal.none
  model : PyVal := PyVal.none
  description : PyVal := PyVal.none
  raw_frontmatter : PyVal := PyVal.none

/-- `PromptFlowReader._create_metadata`.  For a truthy non-dict frontmatter
the `.get` calls raise an `AttributeError`. -/
def create_metadata (file_path : String) (frontmatter : PyVal) :
    Except PyExc FileMetadata := do
  let file_type ← determine_file_type file_path frontmatter
  if !frontmatter.truthy then
    pure { file_type := file_type }
  else do
    let a ← pyGet frontmatter "applyTo"
    let a' ← pyGet frontmatter "applyto"
    let m ← pyGet frontmatter "mode"
    let m' ← pyGet frontmatter "model"
    let d ← pyGet frontmatter "description"
    pure { file_type := file_type, apply_to := pyOr a a', mode := m,
           model := m', description := d, raw_frontmatter := frontmatter }

/-- `@dataclass ProcessedFile` from the source. -/
structure ProcessedFile where
  file_path : String
  metadata : FileMetadata
  content : String
  frontmatter : PyVal := PyVal.none

/-- `PromptFlowReader.read_file`.  The file system is a parameter
(`fs path = none` models a missing file); a present file is readable, so
the source's `IOError` re-raise branch stays empty in the model. -/
def read_file (sf : SafeLoad) (fs : String → Option String) (file_path : String) :
    Except PyExc ProcessedFile :=
  match fs file_path with
  | Option.none => Except.error PyExc.fileNotFoundError
  | Option.some content =>
    let fm := extract_frontmatter sf content
    do
      let metadata ← create_metadata file_path fm.1
      pure { file_path := file_path, metadata := metadata,
             content := fm.2, frontmatter := fm.1 }

/- ## File catalog -/

/-- Default `instruction_patterns` from `PromptFlowReader.__init__`. -/
def instruction_patterns : List String :=
  [".github/instructions/**/*.instructions.md",
   "instructions/**/*.instructions.md",
   "**/*.instructions.md"]

/-- Default `prompt_patterns` from `PromptFlowReader.__init__`. -/
def prompt_patterns : List String :=
  [".github/prompts/**/*.prompt.md",
   "prompts/**/*.prompt.md",
   "**/*.prompt.md"]

/-- Default `doc_patterns` from `PromptFlowReader.__init__`. -/
def doc_patterns : List String :=
  ["docs/**/*.md", "*.md"]

/-- The loop `for pattern in patterns: found_files.extend(base.glob(pattern))`;
the glob primitive (already bound to the base directory) is an external
collaborator and hence a parameter. -/
def globAll (glob : String → List String) : List String → List String
  | [] => []
  | p :: ps => glob p ++ globAll glob ps

/-- Ordering on strings used to model Python `sorted` on paths. -/
def strLe (a b : String) : Bool :=
  go a.toList b.toList
where
  go : List Char → List Char → Bool
    | [], _ => true
    | _ :: _, [] => false
    | x :: xs, y :: ys =>
      if x.toNat < y.toNat then true
      else if y.toNat < x.toNat then false
      else go xs ys

/-- Insert into a duplicate-free sorted list, skipping existing elements. -/
def insertUniq (x : String) : List String → List String
  | [] => [x]
  | y :: ys =>
    if x == y then y :: ys
    else if strLe x y then x :: y :: ys
    else y :: insertUniq x ys

/-- Python `sorted(set(l))` for paths. -/
def sortedSet (l : List String) : List String :=
  l.foldl (fun acc x => insertUniq x acc) []

/-- `PromptFlowReader.find_files_by_pattern`: union of the glob results,
de-duplicated, sorted, directories (non-files) excluded. -/
def find_files_by_pattern (glob : String → List String) (isFile : String → Bool)
    (patterns : List String) : List String :=
  (sortedSet (globAll glob patterns)).filter isFile

/-- Run a fallible read over a list, propagating the first exception
(models the list comprehensions `[self.read_file(f) for f in files]`). -/
def mapExcept (f : α → Except ε β) : List α → Except ε (List β)
  | [] => Except.ok []
  | a :: as => do
    let b ← f a
    let bs ← mapExcept f as
    pure (b :: bs)

/-- `PromptFlowReader.read_instruction_files`. -/
def read_instruction_files (sf : SafeLoad) (fs : String → Option String)
    (glob : String → List String) (isFile : String → Bool) :
    Except PyExc (List ProcessedFile) :=
  mapExcept (read_file sf fs) (find_files_by_pattern glob isFile instruction_patterns)

/-- `PromptFlowReader.read_prompt_files`. -/
def read_prompt_files (sf : SafeLoad) (fs : String → Option String)
    (glob : String → List String) (isFile : String → Bool) :
    Except PyExc (List ProcessedFile) :=
  mapExcept (read_file sf fs) (find_files_by_pattern glob isFile prompt_patterns)

/-- The dictionary returned by `PromptFlowReader.read_all_files`. -/
structure AllFiles where
  instructions : List ProcessedFile
  prompts : List ProcessedFile
  documents : List ProcessedFile

/-- `PromptFlowReader.read_all_files`: the document bucket is the document
pattern matches minus the paths already read as instructions or prompts. -/
def read_all_files (sf : SafeLoad) (fs : String → Option String)
    (glob : String → List String) (isFile : String → Bool) :
    Except PyExc AllFiles := do
  let instructions ← read_instruction_files sf fs glob isFile
  let prompts ← read_prompt_files sf fs glob isFile
  let doc_files := find_files_by_pattern glob isFile doc_patterns
  let processed_paths := (instructions ++ prompts).map (fun f => f.file_path)
  let remaining_docs := doc_files.filter (fun f => !processed_paths.contains f)
  let documents ← mapExcept (read_file sf fs) remaining_docs
  pure { instructions := instructions, prompts := prompts, documents := documents }

/- ## Flow engine -/

/-- One step descriptor of the YAML flow.  Every key is optional in the
source (`step.get(...)` with defaults applied inside `execute_flow`). -/
structure Step where
  step : Option String := Option.none
  type : Option String := Option.none
  file : Option String := Option.none
  description : Option String := Option.none
  required : Option Bool := Option.none

/-- `FlowConfig` (the fields `execute_flow` reads; `config`, `file_patterns`,
`output` and `execution` only feed configuration loading and the CLI). -/
structure FlowConfig where
  name : String
  version : String := "1.0.0"
  description : String := ""
  flow : List Step := []

/-- One entry of `results['steps_executed']` (the per-branch dict keys are
modelled as optional fields). -/
structure StepResult where
  step : String
  type : String
  file : String
  status : String
  content_length : Option Nat := Option.none
  error : Option String := Option.none
  reason : Option String := Option.none

/-- The `results` dictionary built by `execute_flow`; `files_processed` is an
insertion-ordered dict keyed by step name. -/
structure FlowResults where
  flow_name : String
  steps_executed : List StepResult
  files_processed : List (String × ProcessedFile)
  combined_context : String

/-- Python dict assignment `d[k] = v`: update in place if the key exists
(keeping its original position), else append. -/
def dictInsert (k : String) (v : α) : List (String × α) → List (String × α)
  | [] => [(k, v)]
  | (k', v') :: rest =>
    if k' == k then (k', v) :: rest else (k', v') :: dictInsert k v rest

/-- `str(e)` for the recorded per-step error (only the recorded status is
claim-relevant; the message is a coarse rendering). -/
def excMessage : PyExc → String
  | PyExc.fileNotFoundError => "FileNotFoundError"
  | PyExc.ioError => "IOError"
  | PyExc.attributeError => "AttributeError"
  | PyExc.typeError => "TypeError"

/-- One iteration of the `for i, step in enumerate(self.config.flow, 1)` loop
of `execute_flow`: the step outcome record, plus the `files_processed`
entry when the read succeeded. -/
def runStep (sf : SafeLoad) (fs : String → Option String) (base : String)
    (i : Nat) (s : Step) : StepResult × Option (String × ProcessedFile) :=
  let step_name := s.step.getD ("step_" ++ Nat.repr i)
  let step_type := s.type.getD "unknown"
  let file_path := s.file.getD ""
  let required := s.required.getD true
  let full_path := joinPath base file_path
  match fs full_path with
  | Option.some _ =>
    match read_file sf fs full_path with
    | Except.ok processed_file =>
      ({ step := step_name, type := step_type, file := file_path,
         status := "success",
         content_length := Option.some processed_file.content.length },
       Option.some (step_name, processed_file))
    | Except.error e =>
      ({ step := step_name, type := step_type, file := file_path,
         status := "error", error := Option.some (excMessage e) },
       Option.none)
  | Option.none =>
    if required then
      ({ step := step_name, type := step_type, file := file_path,
         status := "error", error := Option.some "File not found" },
       Option.none)
    else
      ({ step := step_name, type := step_type, file := file_path,
         status := "skipped", reason := Option.some "Optional file not found" },
       Option.none)

/-- The whole step loop of `execute_flow`, threading `files_processed`. -/
def runSteps (sf : SafeLoad) (fs : String → Option String) (base : String) :
    Nat → List Step → List (String × ProcessedFile) →
    List StepResult × List (String × ProcessedFile)
  | _, [], fps => ([], fps)
  | i, s :: rest, fps =>
    let outcome := runStep sf fs base i s
    let fps' := match outcome.2 with
      | Option.some kv => dictInsert kv.1 kv.2 fps
      | Option.none => fps
    let next := runSteps sf fs base (i + 1) rest fps'
    (outcome.1 :: next.1, next.2)

/- ## Combined prompt context -/

/-- `str(value)` as used by the f-string interpolation in the generated
prompt headers (braces rendered escaped). -/
def pyStr : PyVal → String
  | .str s => s
  | .none => "None"
  | .bool true => "True"
  | .bool false => "False"
  | .int n => toString n
  | .list _ => "[...]"
  | .dict _ => "\x7b...\x7d"

/-- The per-file header block generated by
`append_and_print_prompt_context` (source lines 503-513). -/
def promptHeader (i : Nat) (f : ProcessedFile) : String :=
  let h := "# Prompt " ++ Nat.repr i ++ ": " ++ pathName f.file_path ++ "\n"
    ++ "# Path: " ++ f.file_path ++ "\n"
  let h := if f.metadata.description.truthy then
    h ++ "# Description: " ++ pyStr f.metadata.description ++ "\n" else h
  let h := if f.metadata.mode.truthy then
    h ++ "# Mode: " ++ pyStr f.metadata.mode ++ "\n" else h
  let h := if f.metadata.model.truthy then
    h ++ "# Model: " ++ pyStr f.metadata.model ++ "\n" else h
  h ++ "\n"

/-- The visual separator block `"\n" + "─" * 50 + "\n"`. -/
def sepBlock : String :=
  "\n" ++ String.mk (List.replicate 50 '─') ++ "\n"

/-- The `combined_context` list built by the loop in
`append_and_print_prompt_context`: header, body, separator per file. -/
def contextBlocks : Nat → List ProcessedFile → List String
  | _, [] => []
  | i, f :: rest => promptHeader i f :: f.content :: sepBlock :: contextBlocks (i + 1) rest

/-- `PromptFlowReader.append_and_print_prompt_context` (its return value;
the console narration is a side effect outside the model). -/
def append_and_print_prompt_context (prompt_files : List ProcessedFile) : String :=
  if prompt_files.isEmpty then ""
  else strJoin "\n" (contextBlocks 1 prompt_files)

/-- `PromptFlowReader.execute_flow`, on the branch taken when a configuration
with a non-empty `flow` is present (the other branch delegates to
`read_all_files`, modelled above as `_execute_default_flow` does). -/
def execute_flow (sf : SafeLoad) (fs : String → Option String) (base : String)
    (config : FlowConfig) : FlowResults :=
  let r := runSteps sf fs base 1 config.flow []
  let prompt_files :=
    (r.2.map Prod.snd).filter (fun f => f.metadata.file_type == FileType.PROMPT)
  { flow_name := config.name
    steps_executed := r.1
    files_processed := r.2
    combined_context :=
      if prompt_files.isEmpty then "" else append_and_print_prompt_context prompt_files }

/-- `enumerate(steps, 1)`: pair each list element with its 1-based index. -/
def enumFrom : Nat → List α → List (Nat × α)
  | _, [] => []
  | i, a :: as => (i, a) :: enumFrom (i + 1) as

/- ## Concrete fixtures used by witnesses and counterexamples -/

/-- A YAML loader that always raises; used where the loader is never reached
or where a parse failure is the scenario under test. -/
def sfErr : SafeLoad := fun _ => Except.error ()

/-- Models the external `yaml.safe_load` on the null YAML document (the
behaviour PyYAML exhibits on spans such as `null` or a comment-only span):
it returns Python `None`. -/
def yamlNullLoad : SafeLoad := fun _ => Except.ok PyVal.none

/-- Models the external `yaml.safe_load` on the bare scalar document
`hello`: PyYAML returns the string itself, not a mapping. -/
def yamlHelloLoad : SafeLoad := fun _ => Except.ok (PyVal.str "hello")

/-- A one-file file system whose file carries a well-delimited header whose
span is the bare scalar `hello`. -/
def fsScalarDemo : String → Option String :=
  fun p => if p = "p.md" then Option.some "---\nhello\n---\nbody" else Option.none

/-- Demo file system for the flow-engine witnesses. -/
def fsDemo : String → Option String :=
  fun p =>
    if p = "base/a.prompt.md" then Option.some "body A"
    else if p = "base/b.prompt.md" then Option.some "body B"
    else Option.none

/-- A required step whose file is missing. -/
def stepMissingReq : Step :=
  { step := Option.some "s1", file := Option.some "nope.md", required := Option.some true }

/-- An optional step whose file is missing. -/
def stepMissingOpt : Step :=
  { step := Option.some "s2", file := Option.some "nope.md", required := Option.some false }

/-- A step whose file exists. -/
def stepOkA : Step :=
  { step := Option.some "s3", file := Option.some "a.prompt.md" }

/-- Two steps sharing the step name `dup` but reading different files. -/
def stepDupA : Step :=
  { step := Option.some "dup", file := Option.some "a.prompt.md" }

/-- Second step named `dup`. -/
def stepDupB : Step :=
  { step := Option.some "dup", file := Option.some "b.prompt.md" }

/-- The record `read_file` produces for `base/a.prompt.md` under `fsDemo`. -/
def pfA : ProcessedFile :=
  { file_path := "base/a.prompt.md", metadata := { file_type := FileType.PROMPT },
    content := "body A" }

/-- The record `read_file` produces for `base/b.prompt.md` under `fsDemo`. -/
def pfB : ProcessedFile :=
  { file_path := "base/b.prompt.md", metadata := { file_type := FileType.PROMPT },
    content := "body B" }

/-- Demo flow configuration: required missing, optional missing, present. -/
def flowDemo : FlowConfig :=
  { name := "demo", flow := [stepMissingReq, stepMissingOpt, stepOkA] }

/-- Demo glob collaborator for the catalog witness. -/
def globDemo : String → List String :=
  fun pat =>
    if pat = "**/*.instructions.md" then ["a.instructions.md"]
    else if pat = "**/*.prompt.md" then ["b.prompt.md"]
    else if pat = "*.md" then ["a.instructions.md", "b.prompt.md", "c.md"]
    else []

/-- Demo file system matching `globDemo`. -/
def fsCatalog : String → Option String :=
  fun p =>
    if p = "a.instructions.md" ∨ p = "b.prompt.md" ∨ p = "c.md" then Option.some "x"
    else Option.none

/- # Helper lemmas -/

theorem splitOnChar_ne_nil (sep : Char) (l : List Char) : splitOnChar sep l ≠ [] := by
  induction l with
  | nil => simp [splitOnChar]
  | cons c cs ih =>
    by_cases h : (c == sep) = true
    · simp [splitOnChar, h]
    · cases hr : splitOnChar sep cs with
      | nil => simp [splitOnChar, h, hr]
      | cons p ps => simp [splitOnChar, h, hr]

theorem fmLines_ne_nil (content : String) : fmLines content ≠ [] := by
  have := splitOnChar_ne_nil '\n' content.toList
  simp only [fmLines, pySplit, ne_eq, List.map_eq_nil_iff]
  exact this

theorem fmLines_isEmpty_false (content : String) : (fmLines content).isEmpty = false := by
  cases hc : fmLines content with
  | nil => exact absurd hc (fmLines_ne_nil content)
  | cons a as => rfl

/-- If the first line does not strip to the sentinel, the extractor is the
identity. -/
theorem extract_of_head_ne (sf : SafeLoad) (content : String)
    (h : pyStrip ((fmLines content).headD "") ≠ "---") :
    extract_frontmatter sf content = (PyVal.none, content) := by
  have hcond : ((fmLines content).isEmpty ||
      pyStrip ((fmLines content).headD "") != "---") = true := by
    rw [bne_iff_ne.mpr h, Bool.or_true]
  simp only [extract_frontmatter]
  rw [if_pos hcond]

/-- If no closing delimiter line is found, the extractor is the identity. -/
theorem extract_of_close_none (sf : SafeLoad) (content : String)
    (h : fmCloseIdx content = Option.none) :
    extract_frontmatter sf content = (PyVal.none, content) := by
  simp only [extract_frontmatter]
  by_cases hcond : ((fmLines content).isEmpty ||
      pyStrip ((fmLines content).headD "") != "---") = true
  · rw [if_pos hcond]
  · rw [if_neg hcond, h]

theorem findDelimIdx_eq_none {ls : List String} (h : ∀ l ∈ ls, pyStrip l ≠ "---") :
    ∀ j, findDelimIdx j ls = Option.none := by
  induction ls with
  | nil => intro j; rfl
  | cons l rest ih =>
    intro j
    have h1 : (pyStrip l == "---") = false := by
      simpa [beq_eq_false_iff_ne] using h l (by simp)
    simp only [findDelimIdx, h1, Bool.false_eq_true, if_false]
    exact ih (fun x hx => h x (List.mem_cons_of_mem _ hx)) (j + 1)

/-- Shape of the extractor when a closing delimiter exists and the span
strips to empty: the empty dict and the joined remainder. -/
theorem extract_empty_span (sf : SafeLoad) (content : String) (j : Nat)
    (hj : fmCloseIdx content = Option.some j)
    (hhead : pyStrip ((fmLines content).headD "") = "---")
    (hspan : pyStrip (fmSpan content j) = "") :
    extract_frontmatter sf content = (PyVal.dict [], fmBody content j) := by
  have hcond : ¬ (((fmLines content).isEmpty ||
      pyStrip ((fmLines content).headD "") != "---") = true) := by
    rw [fmLines_isEmpty_false content, hhead]
    decide
  simp only [extract_frontmatter]
  rw [if_neg hcond, hj]
  dsimp only
  rw [if_pos (beq_iff_eq.mpr hspan)]

/-- Shape of the extractor when the span is parsed and the loader succeeds. -/
theorem extract_parse_ok (sf : SafeLoad) (content : String) (j : Nat) (v : PyVal)
    (hj : fmCloseIdx content = Option.some j)
    (hhead : pyStrip ((fmLines content).headD "") = "---")
    (hspan : pyStrip (fmSpan content j) ≠ "")
    (hsf : sf (fmSpan content j) = Except.ok v) :
    extract_frontmatter sf content = (v, fmBody content j) := by
  have hcond : ¬ (((fmLines content).isEmpty ||
      pyStrip ((fmLines content).headD "") != "---") = true) := by
    rw [fmLines_isEmpty_false content, hhead]
    decide
  simp only [extract_frontmatter]
  rw [if_neg hcond, hj]
  dsimp only
  have hb : ¬ ((pyStrip (fmSpan content j) == "") = true) := by
    simp [beq_eq_false_iff_ne.mpr hspan]
  rw [if_neg hb, hsf]

/-- Shape of the extractor when the span is parsed and the loader raises:
identity. -/
theorem extract_parse_error (sf : SafeLoad) (content : String) (j : Nat) (e : Unit)
    (hj : fmCloseIdx content = Option.some j)
    (hhead : pyStrip ((fmLines content).headD "") = "---")
    (hspan : pyStrip (fmSpan content j) ≠ "")
    (hsf : sf (fmSpan content j) = Except.error e) :
    extract_frontmatter sf content = (PyVal.none, content) := by
  have hcond : ¬ (((fmLines content).isEmpty ||
      pyStrip ((fmLines content).headD "") != "---") = true) := by
    rw [fmLines_isEmpty_false content, hhead]
    decide
  simp only [extract_frontmatter]
  rw [if_neg hcond, hj]
  dsimp only
  have hb : ¬ ((pyStrip (fmSpan content j) == "") = true) := by
    simp [beq_eq_false_iff_ne.mpr hspan]
  rw [if_neg hb, hsf]

/- # Claim C1 -/

/-- C1 counterexample: the claim says `extract_header` returns exactly one
of the shapes `(absent, raw text unchanged)` or `(a parsed key-value map,
text after the closing delimiter)`.  With the external YAML parser's
behaviour on the null document (PyYAML returns Python `None` for the span
`null`), the input `---\nnull\n---\nbody` produces `(None, "body")`:
the header IS stripped, yet the returned header is absent and no map is
produced — neither claimed shape. -/
theorem C1_counterexample :
    ¬ ((extract_frontmatter yamlNullLoad "---\nnull\n---\nbody" =
          (PyVal.none, "---\nnull\n---\nbody")) ∨
       (∃ kvs rest, extract_frontmatter yamlNullLoad "---\nnull\n---\nbody" =
          (PyVal.dict kvs, rest))) := by
  have h : extract_frontmatter yamlNullLoad "---\nnull\n---\nbody" =
      (PyVal.none, "body") := rfl
  rintro (hc | ⟨kvs, rest, hc⟩)
  · rw [h] at hc
    have hbody : "body" = "---\nnull\n---\nbody" := congrArg Prod.snd hc
    exact absurd hbody (by decide)
  · rw [h] at hc
    exact PyVal.noConfusion (congrArg Prod.fst hc)

/-- C1 (amended): for every input, `extract_header` either returns
`(absent, raw text unchanged)` or, when a closing delimiter line exists at
index `j` of the subsequent lines, `(the value produced for the span, the
lines strictly after the closing delimiter rejoined with line breaks)`;
moreover a well-formed header with an empty span yields exactly the empty
map (not absent), and a loader failure on the span yields
`(absent, raw text unchanged)`.  (The returned value is the parsed
structured value, which need not be a key-value map; when the external
parser yields the null value the first component is `None` even though the
header was stripped.) -/
theorem C1_extract_shapes (sf : SafeLoad) (content : String) :
    ((extract_frontmatter sf content = (PyVal.none, content)) ∨
      (∃ j v, fmCloseIdx content = Option.some j ∧
        extract_frontmatter sf content = (v, fmBody content j))) ∧
    (∀ j, fmCloseIdx content = Option.some j →
      pyStrip ((fmLines content).headD "") = "---" →
      pyStrip (fmSpan content j) = "" →
      extract_frontmatter sf content = (PyVal.dict [], fmBody content j)) ∧
    (∀ j e, fmCloseIdx content = Option.some j →
      pyStrip ((fmLines content).headD "") = "---" →
      pyStrip (fmSpan content j) ≠ "" →
      sf (fmSpan content j) = Except.error e →
      extract_frontmatter sf content = (PyVal.none, content)) := by
  refine ⟨?_, ?_, ?_⟩
  · by_cases hhead : pyStrip ((fmLines content).headD "") = "---"
    · cases hj : fmCloseIdx content with
      | none => exact Or.inl (extract_of_close_none sf content hj)
      | some j =>
        by_cases hspan : pyStrip (fmSpan content j) = ""
        · exact Or.inr ⟨j, PyVal.dict [], rfl,
            extract_empty_span sf content j hj hhead hspan⟩
        · cases hsf : sf (fmSpan content j) with
          | error e =>
            exact Or.inl (extract_parse_error sf content j e hj hhead hspan hsf)
          | ok v =>
            exact Or.inr ⟨j, v, rfl, extract_parse_ok sf content j v hj hhead hspan hsf⟩
    · exact Or.inl (extract_of_head_ne sf content hhead)
  · intro j hj hhead hspan
    exact extract_empty_span sf content j hj hhead hspan
  · intro j e hj hhead hspan hsf
    exact extract_parse_error sf content j e hj hhead hspan hsf

/-- C1 witness: a well-formed header whose span strips to empty yields the
empty map with the remainder, and a loader failure degrades to the
unchanged input. -/
theorem C1_witness :
    extract_frontmatter sfErr "---\n \n---\nB" = (PyVal.dict [], "B") ∧
    extract_frontmatter sfErr "---\nk: v\n---\nB" =
      (PyVal.none, "---\nk: v\n---\nB") := by
  constructor
  · exact (C1_extract_shapes sfErr "---\n \n---\nB").2.1 1 rfl rfl rfl
  · exact (C1_extract_shapes sfErr "---\nk: v\n---\nB").2.2 1 () rfl rfl
      (by decide) rfl

/- # Claim C3 -/

/-- C3 counterexample: the claim demands identity whenever the first line
is not EXACTLY the three-hyphen sentinel.  The code strips the line first:
on the input whose first line is `" ---"` (a space before the hyphens, so
not exactly the sentinel), the extractor still recognises the header and
strips it, returning `(empty map, "body")` rather than the unchanged
text. -/
theorem C3_counterexample :
    (fmLines " ---\n---\nbody").headD "" = " ---" ∧
    " ---" ≠ "---" ∧
    extract_frontmatter sfErr " ---\n---\nbody" ≠
      (PyVal.none, " ---\n---\nbody") := by
  refine ⟨rfl, by decide, ?_⟩
  have h : extract_frontmatter sfErr " ---\n---\nbody" = (PyVal.dict [], "body") := rfl
  rw [h]
  intro hc
  exact PyVal.noConfusion (congrArg Prod.fst hc)

/-- C3 (amended): for every input whose first line does not strip (Python
`str.strip`) to the three-hyphen sentinel, `extract_header` returns
`(absent, the original text unchanged)` — an identity on such inputs. -/
theorem C3_identity (sf : SafeLoad) (content : String)
    (h : pyStrip ((fmLines content).headD "") ≠ "---") :
    extract_frontmatter sf content = (PyVal.none, content) :=
  extract_of_head_ne sf content h

/-- C3 witness at a concrete input without a leading sentinel line. -/
theorem C3_witness :
    pyStrip ((fmLines "hello\nworld").headD "") ≠ "---" ∧
    extract_frontmatter sfErr "hello\nworld" = (PyVal.none, "hello\nworld") :=
  ⟨by decide, C3_identity sfErr "hello\nworld" (by decide)⟩

/- # Claim C5 -/

/-- C5: when the first line is a sentinel delimiter line but no later line
is one (no line of `lines[1:]` strips to `---`), the extractor returns
`(absent, the original text unchanged)`: the unterminated block is neither
stripped nor parsed. -/
theorem C5_unterminated (sf : SafeLoad) (content : String)
    (_hhead : pyStrip ((fmLines content).headD "") = "---")
    (hrest : ∀ l ∈ (fmLines content).tail, pyStrip l ≠ "---") :
    extract_frontmatter sf content = (PyVal.none, content) :=
  extract_of_close_none sf content (findDelimIdx_eq_none hrest 0)

/-- C5 witness: an opening delimiter that is never closed passes through. -/
theorem C5_witness :
    pyStrip ((fmLines "---\ntitle: x\nbody").headD "") = "---" ∧
    extract_frontmatter sfErr "---\ntitle: x\nbody" =
      (PyVal.none, "---\ntitle: x\nbody") :=
  ⟨rfl, C5_unterminated sfErr "---\ntitle: x\nbody" rfl (by decide)⟩

/- # Claim C8 -/

/-- C8: `extract_header` is idempotent on its own output: if the returned
body does not itself start with a new delimited header block (a first line
stripping to the sentinel together with some closing delimiter line), then
extracting again returns `(absent, body)`. -/
theorem C8_idempotent (sf : SafeLoad) (input : String)
    (h : ¬ (pyStrip ((fmLines ((extract_frontmatter sf input).2)).headD "") = "---" ∧
            (fmCloseIdx ((extract_frontmatter sf input).2)).isSome = true)) :
    extract_frontmatter sf ((extract_frontmatter sf input).2) =
      (PyVal.none, (extract_frontmatter sf input).2) := by
  by_cases hh : pyStrip ((fmLines ((extract_frontmatter sf input).2)).headD "") = "---"
  · have hclose : fmCloseIdx ((extract_frontmatter sf input).2) = Option.none := by
      cases hc : fmCloseIdx ((extract_frontmatter sf input).2) with
      | none => rfl
      | some j => exact absurd ⟨hh, by rw [hc]; rfl⟩ h
    exact extract_of_close_none sf _ hclose
  · exact extract_of_head_ne sf _ hh

/-- C8 witness: extracting a body produced by the extractor again is the
identity when the body starts with no new header block. -/
theorem C8_witness :
    (¬ (pyStrip ((fmLines ((extract_frontmatter sfErr "hello").2)).headD "") = "---" ∧
        (fmCloseIdx ((extract_frontmatter sfErr "hello").2)).isSome = true)) ∧
    extract_frontmatter sfErr ((extract_frontmatter sfErr "hello").2) =
      (PyVal.none, (extract_frontmatter sfErr "hello").2) :=
  ⟨by decide, C8_idempotent sfErr "hello" (by decide)⟩

/- # Claim C2 -/

theorem except_ok_bind {ε α β : Type} (a : α) (f : α → Except ε β) :
    (Except.ok a >>= f) = f a := rfl

theorem except_error_bind {ε α β : Type} (e : ε) (f : α → Except ε β) :
    ((Except.error e : Except ε α) >>= f) = Except.error e := rfl

theorem except_pure {ε α : Type} (a : α) : (pure a : Except ε α) = Except.ok a := rfl

theorem dictHasKey_isEmpty_false {kvs : List (String × PyVal)} {k : String}
    (h : dictHasKey kvs k = true) : kvs.isEmpty = false := by
  cases kvs with
  | nil => exact absurd h (by simp [dictHasKey])
  | cons a as => rfl

/-- C2: `_determine_file_type` evaluates its rules in strict order: an
`.instructions.md` filename substring yields Instruction; else a
`.prompt.md` substring yields Prompt; else a present header map with an
`applyTo`/`applyto` key yields Instruction; else one with a `mode` or
`model` key yields Prompt; else Document.  Filename suffix wins over
metadata, and a file with no matching suffix and no recognized keys (or no
header) is always Document. -/
theorem C2_classification :
    (∀ p fm, strContains (pyLower (pathName p)) ".instructions.md" = true →
      determine_file_type p fm = Except.ok FileType.INSTRUCTION) ∧
    (∀ p fm, strContains (pyLower (pathName p)) ".instructions.md" = false →
      strContains (pyLower (pathName p)) ".prompt.md" = true →
      determine_file_type p fm = Except.ok FileType.PROMPT) ∧
    (∀ p kvs, strContains (pyLower (pathName p)) ".instructions.md" = false →
      strContains (pyLower (pathName p)) ".prompt.md" = false →
      (dictHasKey kvs "applyTo" = true ∨ dictHasKey kvs "applyto" = true) →
      determine_file_type p (PyVal.dict kvs) = Except.ok FileType.INSTRUCTION) ∧
    (∀ p kvs, strContains (pyLower (pathName p)) ".instructions.md" = false →
      strContains (pyLower (pathName p)) ".prompt.md" = false →
      dictHasKey kvs "applyTo" = false → dictHasKey kvs "applyto" = false →
      (dictHasKey kvs "mode" = true ∨ dictHasKey kvs "model" = true) →
      determine_file_type p (PyVal.dict kvs) = Except.ok FileType.PROMPT) ∧
    (∀ p kvs, strContains (pyLower (pathName p)) ".instructions.md" = false →
      strContains (pyLower (pathName p)) ".prompt.md" = false →
      dictHasKey kvs "applyTo" = false → dictHasKey kvs "applyto" = false →
      dictHasKey kvs "mode" = false → dictHasKey kvs "model" = false →
      determine_file_type p (PyVal.dict kvs) = Except.ok FileType.DOCUMENT) ∧
    (∀ p, strContains (pyLower (pathName p)) ".instructions.md" = false →
      strContains (pyLower (pathName p)) ".prompt.md" = false →
      determine_file_type p PyVal.none = Except.ok FileType.DOCUMENT) := by
  refine ⟨?_, ?_, ?_, ?_, ?_, ?_⟩
  · intro p fm h1
    simp [determine_file_type, h1]
  · intro p fm h1 h2
    simp [determine_file_type, h1, h2]
  · intro p kvs h1 h2 h3
    have hne : kvs.isEmpty = false := by
      rcases h3 with h | h <;> exact dictHasKey_isEmpty_false h
    rcases h3 with h | h <;>
      simp [determine_file_type, h1, h2, PyVal.truthy, hne, pyIn, h, except_ok_bind, except_pure]
  · intro p kvs h1 h2 ha ha' h3
    have hne : kvs.isEmpty = false := by
      rcases h3 with h | h <;> exact dictHasKey_isEmpty_false h
    rcases h3 with h | h <;>
      simp [determine_file_type, h1, h2, PyVal.truthy, hne, pyIn, ha, ha', h, except_ok_bind, except_pure]
  · intro p kvs h1 h2 ha ha' hm hm'
    cases hne : kvs.isEmpty with
    | true =>
      simp [determine_file_type, h1, h2, PyVal.truthy, hne]
    | false =>
      simp [determine_file_type, h1, h2, PyVal.truthy, hne, pyIn, ha, ha', hm, hm',
        except_ok_bind, except_pure]
  · intro p h1 h2
    simp [determine_file_type, h1, h2, PyVal.truthy]

/-- C2 witness: `foo.instructions.md` with header `mode: agent` is still
Instruction (suffix wins); `bar.md` with no header is Document. -/
theorem C2_witness :
    determine_file_type "foo.instructions.md"
      (PyVal.dict [("mode", PyVal.str "agent")]) = Except.ok FileType.INSTRUCTION ∧
    determine_file_type "bar.md" PyVal.none = Except.ok FileType.DOCUMENT :=
  ⟨C2_classification.1 "foo.instructions.md" (PyVal.dict [("mode", PyVal.str "agent")])
      (by decide),
   C2_classification.2.2.2.2.2 "bar.md" (by decide) (by decide)⟩

/- # Claim C4 -/

theorem read_file_ok_fs_some {sf : SafeLoad} {fs : String → Option String}
    {p : String} {pf : ProcessedFile} (h : read_file sf fs p = Except.ok pf) :
    ∃ c, fs p = Option.some c := by
  unfold read_file at h
  cases hfs : fs p with
  | none => rw [hfs] at h; exact absurd h (by simp)
  | some c => exact ⟨c, rfl⟩

theorem read_file_ok_path {sf : SafeLoad} {fs : String → Option String}
    {p : String} {pf : ProcessedFile} (h : read_file sf fs p = Except.ok pf) :
    pf.file_path = p := by
  unfold read_file at h
  cases hfs : fs p with
  | none => rw [hfs] at h; exact absurd h (by simp)
  | some c =>
    rw [hfs] at h
    dsimp only at h
    cases hm : create_metadata p (extract_frontmatter sf c).1 with
    | error e => rw [hm, except_error_bind] at h; exact absurd h (by simp)
    | ok md =>
      rw [hm, except_ok_bind, except_pure] at h
      cases h
      rfl

theorem runSteps_fst (sf : SafeLoad) (fs : String → Option String) (base : String) :
    ∀ (steps : List Step) (i : Nat) (fps : List (String × ProcessedFile)),
      (runSteps sf fs base i steps fps).1 =
        (enumFrom i steps).map (fun p => (runStep sf fs base p.1 p.2).1) := by
  intro steps
  induction steps with
  | nil => intro i fps; rfl
  | cons s rest ih =>
    intro i fps
    simp only [runSteps, enumFrom, List.map_cons]
    rw [ih]

/-- C4: in `execute_flow` with a non-empty step list, every step is
evaluated and contributes exactly one per-step outcome (a per-step failure
never aborts the flow); a missing file on a required step records status
`error`, a missing file on an optional step records `skipped`, and a
successfully read file records `success` together with the content
length. -/
theorem C4_step_outcomes :
    (∀ (sf : SafeLoad) (fs : String → Option String) (base : String)
        (config : FlowConfig), config.flow ≠ [] →
      (execute_flow sf fs base config).steps_executed =
        (enumFrom 1 config.flow).map (fun p => (runStep sf fs base p.1 p.2).1)) ∧
    (∀ (sf : SafeLoad) (fs : String → Option String) (base : String) (i : Nat)
        (s : Step), fs (joinPath base (s.file.getD "")) = Option.none →
      s.required.getD true = true →
      (runStep sf fs base i s).1.status = "error") ∧
    (∀ (sf : SafeLoad) (fs : String → Option String) (base : String) (i : Nat)
        (s : Step), fs (joinPath base (s.file.getD "")) = Option.none →
      s.required.getD true = false →
      (runStep sf fs base i s).1.status = "skipped") ∧
    (∀ (sf : SafeLoad) (fs : String → Option String) (base : String) (i : Nat)
        (s : Step) (pf : ProcessedFile),
      read_file sf fs (joinPath base (s.file.getD "")) = Except.ok pf →
      (runStep sf fs base i s).1.status = "success" ∧
      (runStep sf fs base i s).1.content_length = Option.some pf.content.length) := by
  refine ⟨?_, ?_, ?_, ?_⟩
  · intro sf fs base config _
    simp only [execute_flow]
    exact runSteps_fst sf fs base config.flow 1 []
  · intro sf fs base i s hfs hreq
    simp [runStep, hfs, hreq]
  · intro sf fs base i s hfs hreq
    simp [runStep, hfs, hreq]
  · intro sf fs base i s pf hread
    obtain ⟨c, hc⟩ := read_file_ok_fs_some hread
    constructor <;> simp [runStep, hc, hread]

/-- C4 witness: a three-step demo flow — required missing (`error`),
optional missing (`skipped`), present (`success` with length 6). -/
theorem C4_witness :
    (execute_flow sfErr fsDemo "base" flowDemo).steps_executed =
      (enumFrom 1 flowDemo.flow).map (fun p => (runStep sfErr fsDemo "base" p.1 p.2).1) ∧
    (runStep sfErr fsDemo "base" 1 stepMissingReq).1.status = "error" ∧
    (runStep sfErr fsDemo "base" 2 stepMissingOpt).1.status = "skipped" ∧
    (runStep sfErr fsDemo "base" 3 stepOkA).1.status = "success" ∧
    (runStep sfErr fsDemo "base" 3 stepOkA).1.content_length = Option.some 6 :=
  ⟨C4_step_outcomes.1 sfErr fsDemo "base" flowDemo (by simp [flowDemo]),
   C4_step_outcomes.2.1 sfErr fsDemo "base" 1 stepMissingReq rfl rfl,
   C4_step_outcomes.2.2.1 sfErr fsDemo "base" 2 stepMissingOpt rfl rfl,
   (C4_step_outcomes.2.2.2 sfErr fsDemo "base" 3 stepOkA pfA rfl).1,
   (C4_step_outcomes.2.2.2 sfErr fsDemo "base" 3 stepOkA pfA rfl).2⟩

/- # Claim C10 -/

theorem runStep_snd_some_success {sf : SafeLoad} {fs : String → Option String}
    {base : String} {i : Nat} {s : Step} {kv : String × ProcessedFile}
    (h : (runStep sf fs base i s).2 = Option.some kv) :
    (runStep sf fs base i s).1.status = "success" := by
  cases hfs : fs (joinPath base (s.file.getD "")) with
  | none =>
    by_cases hreq : s.required.getD true = true
    · simp [runStep, hfs, hreq] at h
    · simp [runStep, hfs, hreq] at h
  | some c =>
    cases hread : read_file sf fs (joinPath base (s.file.getD "")) with
    | error e => simp [runStep, hfs, hread] at h
    | ok pf => simp [runStep, hfs, hread]

/-- C10: `files_processed` keys successful records by step name, and a
later successful step with the same step name overwrites the earlier one:
on a two-step flow whose steps both succeed under the shared key `k`, the
final `files_processed` holds only the second file, both steps are still
recorded with status `success`, and (when the second file is a Prompt)
the combined context is built from the second file alone. -/
theorem C10_duplicate_names (sf : SafeLoad) (fs : String → Option String)
    (base nm ver des : String) (s₁ s₂ : Step) (k : String)
    (pf₁ pf₂ : ProcessedFile)
    (h₁ : (runStep sf fs base 1 s₁).2 = Option.some (k, pf₁))
    (h₂ : (runStep sf fs base 2 s₂).2 = Option.some (k, pf₂)) :
    (execute_flow sf fs base ⟨nm, ver, des, [s₁, s₂]⟩).files_processed = [(k, pf₂)] ∧
    (execute_flow sf fs base ⟨nm, ver, des, [s₁, s₂]⟩).steps_executed =
      [(runStep sf fs base 1 s₁).1, (runStep sf fs base 2 s₂).1] ∧
    (runStep sf fs base 1 s₁).1.status = "success" ∧
    (runStep sf fs base 2 s₂).1.status = "success" ∧
    (pf₂.metadata.file_type = FileType.PROMPT →
      (execute_flow sf fs base ⟨nm, ver, des, [s₁, s₂]⟩).combined_context =
        append_and_print_prompt_context [pf₂]) := by
  have hrun : runSteps sf fs base 1 [s₁, s₂] [] =
      ([(runStep sf fs base 1 s₁).1, (runStep sf fs base 2 s₂).1], [(k, pf₂)]) := by
    simp [runSteps, h₁, h₂, dictInsert]
  refine ⟨?_, ?_, runStep_snd_some_success h₁, runStep_snd_some_success h₂, ?_⟩
  · simp [execute_flow, hrun]
  · simp [execute_flow, hrun]
  · intro hpt
    have hbeq : (FileType.PROMPT == FileType.PROMPT) = true := rfl
    simp [execute_flow, hrun, append_and_print_prompt_context, List.filter, hpt, hbeq]

/-- C10 witness: two successful steps named `dup` reading different prompt
files; only the second file remains in `files_processed` and in the
combined context. -/
theorem C10_witness :
    (execute_flow sfErr fsDemo "base"
        ⟨"demo", "1.0.0", "", [stepDupA, stepDupB]⟩).files_processed = [("dup", pfB)] ∧
    (execute_flow sfErr fsDemo "base"
        ⟨"demo", "1.0.0", "", [stepDupA, stepDupB]⟩).combined_context =
      append_and_print_prompt_context [pfB] := by
  have h := C10_duplicate_names sfErr fsDemo "base" "demo" "1.0.0" "" stepDupA stepDupB
    "dup" pfA pfB rfl rfl
  exact ⟨h.1, h.2.2.2.2 rfl⟩

/- # Claim C7 -/

/-- C7: `combine([])` is the empty string, and `combine([a, b])` is exactly
the ordinal header for index 1, then `a`'s body, then the separator block,
then the ordinal header for index 2, then `b`'s body, then the separator
block, all joined with line breaks — so both bodies appear in order, each
preceded by its generated header and followed by the separator. -/
theorem C7_combine :
    append_and_print_prompt_context [] = "" ∧
    (∀ a b : ProcessedFile,
      append_and_print_prompt_context [a, b] =
        promptHeader 1 a ++ "\n" ++ (a.content ++ "\n" ++ (sepBlock ++ "\n" ++
          (promptHeader 2 b ++ "\n" ++ (b.content ++ "\n" ++ sepBlock))))) := by
  refine ⟨rfl, ?_⟩
  intro a b
  simp only [append_and_print_prompt_context, contextBlocks, strJoin,
    List.isEmpty_cons, Bool.false_eq_true, if_false]

/- # Claim C9 -/

/-- C9: a file whose well-delimited header span parses as the bare scalar
`hello` (valid YAML, not a mapping) makes `read_file` raise an
`AttributeError` — the metadata projection calls `.get` on the non-mapping
value — which is neither `FileNotFoundError` nor `IOError`; so `read_file`
is not total over well-delimited inputs. -/
theorem C9_scalar_header_raises :
    read_file yamlHelloLoad fsScalarDemo "p.md" = Except.error PyExc.attributeError ∧
    PyExc.attributeError ≠ PyExc.fileNotFoundError ∧
    PyExc.attributeError ≠ PyExc.ioError :=
  ⟨rfl, by decide, by decide⟩

/- # Claim C6 -/

theorem except_bind_ok_iff {ε α β : Type} {m : Except ε α} {f : α → Except ε β} {b : β} :
    (m >>= f) = Except.ok b ↔ ∃ a, m = Except.ok a ∧ f a = Except.ok b := by
  cases m with
  | error e => simp [except_error_bind]
  | ok a => simp [except_ok_bind]

theorem mem_insertUniq {a x : String} : ∀ {l : List String},
    a ∈ insertUniq x l → a = x ∨ a ∈ l := by
  intro l
  induction l with
  | nil =>
    intro h
    simp only [insertUniq, List.mem_singleton] at h
    exact Or.inl h
  | cons y ys ih =>
    intro h
    simp only [insertUniq] at h
    by_cases h1 : (x == y) = true
    · rw [if_pos h1] at h
      exact Or.inr h
    · rw [if_neg h1] at h
      by_cases h2 : strLe x y = true
      · rw [if_pos h2] at h
        rcases List.mem_cons.mp h with h | h
        · exact Or.inl h
        · exact Or.inr h
      · rw [if_neg h2] at h
        rcases List.mem_cons.mp h with h | h
        · exact Or.inr (by simp [h])
        · rcases ih h with h | h
          · exact Or.inl h
          · exact Or.inr (List.mem_cons_of_mem _ h)

theorem mem_sortedSet_aux {a : String} : ∀ (l acc : List String),
    a ∈ l.foldl (fun acc x => insertUniq x acc) acc → a ∈ acc ∨ a ∈ l := by
  intro l
  induction l with
  | nil => intro acc h; exact Or.inl h
  | cons x xs ih =>
    intro acc h
    simp only [List.foldl_cons] at h
    rcases ih (insertUniq x acc) h with h | h
    · rcases mem_insertUniq h with h | h
      · exact Or.inr (by simp [h])
      · exact Or.inl h
    · exact Or.inr (List.mem_cons_of_mem _ h)

theorem mem_sortedSet {a : String} {l : List String} (h : a ∈ sortedSet l) : a ∈ l := by
  rcases mem_sortedSet_aux l [] h with h | h
  · exact absurd h (List.not_mem_nil a)
  · exact h

theorem mem_globAll {glob : String → List String} {a : String} :
    ∀ {ps : List String}, a ∈ globAll glob ps → ∃ p, p ∈ ps ∧ a ∈ glob p := by
  intro ps
  induction ps with
  | nil => intro h; cases h
  | cons p ps ih =>
    intro h
    rcases List.mem_append.mp h with h | h
    · exact ⟨p, by simp, h⟩
    · rcases ih h with ⟨q, hq, ha⟩
      exact ⟨q, List.mem_cons_of_mem _ hq, ha⟩

theorem mem_find_pattern {glob : String → List String} {isFile : String → Bool}
    {pats : List String} {a : String}
    (h : a ∈ find_files_by_pattern glob isFile pats) : ∃ p, p ∈ pats ∧ a ∈ glob p :=
  mem_globAll (mem_sortedSet (List.mem_filter.mp h).1)

theorem mapExcept_read_file_paths {sf : SafeLoad} {fs : String → Option String} :
    ∀ {paths : List String} {l : List ProcessedFile},
      mapExcept (read_file sf fs) paths = Except.ok l →
      l.map (fun f => f.file_path) = paths := by
  intro paths
  induction paths with
  | nil =>
    intro l h
    simp only [mapExcept] at h
    cases h
    rfl
  | cons p ps ih =>
    intro l h
    simp only [mapExcept] at h
    cases hr : read_file sf fs p with
    | error e => rw [hr, except_error_bind] at h; exact absurd h (by simp)
    | ok pf =>
      rw [hr, except_ok_bind] at h
      cases hm : mapExcept (read_file sf fs) ps with
      | error e => rw [hm, except_error_bind] at h; exact absurd h (by simp)
      | ok rest =>
        rw [hm, except_ok_bind, except_pure] at h
        cases h
        simp only [List.map_cons]
        rw [ih hm, read_file_ok_path hr]

theorem takesLead_total : ∀ (r a b : List Char),
    takesLead a r = true → takesLead b r = true →
    takesLead a b = true ∨ takesLead b a = true := by
  intro r
  induction r with
  | nil =>
    intro a b ha _
    cases a with
    | nil => exact Or.inl rfl
    | cons x xs => exact absurd ha (by simp [takesLead])
  | cons c cs ih =>
    intro a b ha hb
    cases a with
    | nil => exact Or.inl rfl
    | cons x xs =>
      cases b with
      | nil => exact Or.inr rfl
      | cons y ys =>
        simp only [takesLead, Bool.and_eq_true, beq_iff_eq] at ha hb
        obtain ⟨hx, ha⟩ := ha
        obtain ⟨hy, hb⟩ := hb
        rcases ih xs ys ha hb with h | h
        · exact Or.inl (by simp [takesLead, hx, hy, h])
        · exact Or.inr (by simp [takesLead, hx, hy, h])

/-- No path ends with both the instruction suffix and the prompt suffix. -/
theorem not_both_suffixes (p : String) :
    ¬ (strEndsWith p ".instructions.md" = true ∧ strEndsWith p ".prompt.md" = true) := by
  rintro ⟨h1, h2⟩
  rcases takesLead_total p.toList.reverse _ _ h1 h2 with h | h
  · exact absurd h (by decide)
  · exact absurd h (by decide)

/-- C6: the three buckets of `read_all_files` are pairwise disjoint by
path, and the document bucket is exactly the document-pattern matches
minus the paths already present in the instruction or prompt buckets.
The disjointness of instructions and prompts uses the (real) property of
the glob collaborator that instruction patterns only yield paths ending in
`.instructions.md` and prompt patterns only paths ending in `.prompt.md`. -/
theorem C6_buckets (sf : SafeLoad) (fs : String → Option String)
    (glob : String → List String) (isFile : String → Bool) (b : AllFiles)
    (hok : read_all_files sf fs glob isFile = Except.ok b)
    (hinstr : ∀ pat ∈ instruction_patterns, ∀ p ∈ glob pat,
      strEndsWith p ".instructions.md" = true)
    (hprompt : ∀ pat ∈ prompt_patterns, ∀ p ∈ glob pat,
      strEndsWith p ".prompt.md" = true) :
    (∀ q, ¬ (q ∈ b.instructions.map (fun f => f.file_path) ∧
             q ∈ b.prompts.map (fun f => f.file_path))) ∧
    (∀ q, ¬ (q ∈ b.instructions.map (fun f => f.file_path) ∧
             q ∈ b.documents.map (fun f => f.file_path))) ∧
    (∀ q, ¬ (q ∈ b.prompts.map (fun f => f.file_path) ∧
             q ∈ b.documents.map (fun f => f.file_path))) ∧
    b.documents.map (fun f => f.file_path) =
      (find_files_by_pattern glob isFile doc_patterns).filter
        (fun f => !(((b.instructions ++ b.prompts).map (fun g => g.file_path)).contains f)) := by
  simp only [read_all_files] at hok
  obtain ⟨instrs, hi, hok⟩ := except_bind_ok_iff.mp hok
  obtain ⟨prompts, hp, hok⟩ := except_bind_ok_iff.mp hok
  obtain ⟨docs, hd, hok⟩ := except_bind_ok_iff.mp hok
  rw [except_pure] at hok
  injection hok with hok
  subst hok
  simp only [read_instruction_files] at hi
  simp only [read_prompt_files] at hp
  have hip : instrs.map (fun f => f.file_path) =
      find_files_by_pattern glob isFile instruction_patterns :=
    mapExcept_read_file_paths hi
  have hpp : prompts.map (fun f => f.file_path) =
      find_files_by_pattern glob isFile prompt_patterns :=
    mapExcept_read_file_paths hp
  have hdp := mapExcept_read_file_paths hd
  have hInstrSuffix : ∀ q ∈ instrs.map (fun f => f.file_path),
      strEndsWith q ".instructions.md" = true := by
    intro q hq
    rw [hip] at hq
    obtain ⟨pat, hpat, hg⟩ := mem_find_pattern hq
    exact hinstr pat hpat q hg
  have hPromptSuffix : ∀ q ∈ prompts.map (fun f => f.file_path),
      strEndsWith q ".prompt.md" = true := by
    intro q hq
    rw [hpp] at hq
    obtain ⟨pat, hpat, hg⟩ := mem_find_pattern hq
    exact hprompt pat hpat q hg
  have hDocNotProcessed : ∀ q ∈ docs.map (fun f => f.file_path),
      ¬ q ∈ (instrs ++ prompts).map (fun g => g.file_path) := by
    intro q hq
    rw [hdp] at hq
    have hq2 := (List.mem_filter.mp hq).2
    simp only [Bool.not_eq_true'] at hq2
    intro hmem
    have hc : (List.map (fun f => f.file_path) (instrs ++ prompts)).contains q = true := by
      show List.elem q (List.map (fun f => f.file_path) (instrs ++ prompts)) = true
      exact List.elem_iff.mpr hmem
    rw [hc] at hq2
    cases hq2
  refine ⟨?_, ?_, ?_, hdp⟩
  · rintro q ⟨hq1, hq2⟩
    exact not_both_suffixes q ⟨hInstrSuffix q hq1, hPromptSuffix q hq2⟩
  · rintro q ⟨hq1, hq2⟩
    exact hDocNotProcessed q hq2 (by
      rw [List.map_append]
      exact List.mem_append_left _ hq1)
  · rintro q ⟨hq1, hq2⟩
    exact hDocNotProcessed q hq2 (by
      rw [List.map_append]
      exact List.mem_append_right _ hq1)

/-- C6 witness: a concrete glob/file-system pair with one instruction file,
one prompt file, and one plain document; the buckets are disjoint. -/
theorem C6_witness :
    ∃ b, read_all_files sfErr fsCatalog globDemo (fun _ => true) = Except.ok b ∧
      (∀ q, ¬ (q ∈ b.instructions.map (fun f => f.file_path) ∧
               q ∈ b.prompts.map (fun f => f.file_path))) :=
  ⟨_, rfl,
   (C6_buckets sfErr fsCatalog globDemo (fun _ => true) _ rfl
     (by decide) (by decide)).1⟩

/- Concrete sanity checks mirroring the spec's testable-properties examples. -/
example :
    determine_file_type "foo.instructions.md" (PyVal.dict [("mode", PyVal.str "agent")]) =
      Except.ok FileType.INSTRUCTION := rfl
example :
    determine_file_type "bar.md" (PyVal.dict [("mode", PyVal.str "ask")]) =
      Except.ok FileType.PROMPT := rfl
example :
    determine_file_type "bar.md" (PyVal.dict [("applyTo", PyVal.str "**/*.ts")]) =
      Except.ok FileType.INSTRUCTION := rfl
example : determine_file_type "bar.md" PyVal.none = Except.ok FileType.DOCUMENT := rfl
example :
    read_file (fun _ => Except.ok (PyVal.str "hello"))
      (fun p => if p = "p.md" then Option.some "---\nhello\n---\nbody" else Option.none)
      "p.md" = Except.error PyExc.attributeError := rfl

example : pySplit '\n' "a\nb" = ["a", "b"] := by decide
example : pySplit '\n' "" = [""] := rfl
example : pyStrip "  --- " = "---" := by decide
example :
    extract_frontmatter (fun _ => Except.error ()) "hello\nworld" =
      (PyVal.none, "hello\nworld") := rfl
example :
    extract_frontmatter (fun _ => Except.error ()) "---\n---\nbody" =
      (PyVal.dict [], "body") := rfl
example :
    extract_frontmatter (fun _ => Except.ok PyVal.none) "---\nnull\n---\nbody" =
      (PyVal.none, "body") := rfl
example :
    extract_frontmatter (fun _ => Except.ok PyVal.none) "---\nmalformed" =
      (PyVal.none, "---\nmalformed") := rfl
